import Mathlib

/-!
Verification development for the AI Recruitment App repository.

The client (`scripts/app.js`) is a single-page application over
`localStorage` / `sessionStorage`; the proxy server is a small Express app.
This file gives a shallow embedding of the storage layer, the password
utilities, the questionnaire, the router and the proxy rate limiter, and
proves the specification claims about them.

JavaScript values that the code stores as JSON are modelled by the `Json`
inductive below; `JSON.parse` / `JSON.stringify` are modelled by an
executable parser and printer over that type (numbers are restricted to
decimal integers, which covers every value this application stores).
External primitives (the Web Crypto PBKDF2 `deriveBits`) are abstracted as
explicit function parameters.
-/

/-- JSON values as stored by the application (numbers restricted to
decimal integers; the app stores only strings, objects and arrays). -/
inductive Json where
  | null : Json
  | bool (b : Bool) : Json
  | num (n : Int) : Json
  | str (s : String) : Json
  | arr (elems : List Json) : Json
  | obj (fields : List (String × Json)) : Json
  deriving Repr

/-- A JavaScript object, as an association list of fields in insertion
order (JS objects cannot hold two fields of the same name). -/
abbrev JsObj := List (String × Json)

/-- JavaScript truthiness of a value. -/
def jsTruthy : Json → Bool
  | .null => false
  | .bool b => b
  | .num n => n != 0
  | .str s => s != ""
  | .arr _ => true
  | .obj _ => true

/-- Truthiness of a possibly-undefined value (`none` models `undefined`). -/
def jsTruthyOpt : Option Json → Bool
  | none => false
  | some v => jsTruthy v

/-- Property read `o.k`: the value of the field, `none` for `undefined`. -/
def objGet : JsObj → String → Option Json
  | [], _ => none
  | p :: rest, k => if p.1 == k then some p.2 else objGet rest k

/-- Does the object have field `k`? -/
def objHasKey (o : JsObj) (k : String) : Bool :=
  (objGet o k).isSome

/-- Property delete `delete o.k`: removes the field, keeping order. -/
def objDelete (o : JsObj) (k : String) : JsObj :=
  o.filter (fun p => p.1 != k)

/-- Replace the value of a pair when its key is `k`. -/
def replaceIfKey (k : String) (v : Json) (p : String × Json) : String × Json :=
  if p.1 == k then (k, v) else p

/-- Property write `o.k = v`: overwrites the field in place if present,
otherwise appends it. -/
def objSet (o : JsObj) (k : String) (v : Json) : JsObj :=
  if objHasKey o k then o.map (replaceIfKey k v)
  else o ++ [(k, v)]

/-! ## JSON parsing and printing (`JSON.parse` / `JSON.stringify`) -/

/-- JSON whitespace. -/
def isJsonWs (c : Char) : Bool :=
  c == ' ' || c == '\t' || c == '\n' || c == '\r'

/-- Skip leading whitespace. -/
def skipWs (cs : List Char) : List Char :=
  cs.dropWhile isJsonWs

/-- ASCII decimal digit test. -/
def isDigitCh (c : Char) : Bool :=
  '0' ≤ c && c ≤ '9'

/-- Value of a decimal digit character. -/
def digitVal (c : Char) : Nat :=
  c.toNat - 48

/-- Accumulate a decimal digit string into a number. -/
def digitsToNat (ds : List Char) : Nat :=
  ds.foldl (fun a c => a * 10 + digitVal c) 0

/-- Parse an integer JSON number (optional minus sign, one or more
digits). -/
def parseNumBody (cs : List Char) : Option (Int × List Char) :=
  match cs with
  | '-' :: rest =>
    let ds := rest.takeWhile isDigitCh
    if ds.isEmpty then none
    else some (-(Int.ofNat (digitsToNat ds)), rest.dropWhile isDigitCh)
  | _ =>
    let ds := cs.takeWhile isDigitCh
    if ds.isEmpty then none
    else some (Int.ofNat (digitsToNat ds), cs.dropWhile isDigitCh)

/-- Value of a hexadecimal digit character, if any. -/
def hexVal (c : Char) : Option Nat :=
  if '0' ≤ c && c ≤ '9' then some (c.toNat - 48)
  else if 'a' ≤ c && c ≤ 'f' then some (c.toNat - 87)
  else if 'A' ≤ c && c ≤ 'F' then some (c.toNat - 55)
  else none

/-- Parse the body of a JSON string after the opening quote; returns the
decoded characters and the remaining input after the closing quote.
`\uXXXX` escapes are accepted only at valid scalar code points. -/
def parseStringBody : List Char → Option (List Char × List Char)
  | [] => none
  | '"' :: rest => some ([], rest)
  | '\\' :: e :: rest =>
    match e with
    | '"' => (parseStringBody rest).map (fun p => ('"' :: p.1, p.2))
    | '\\' => (parseStringBody rest).map (fun p => ('\\' :: p.1, p.2))
    | '/' => (parseStringBody rest).map (fun p => ('/' :: p.1, p.2))
    | 'b' => (parseStringBody rest).map (fun p => ('\x08' :: p.1, p.2))
    | 'f' => (parseStringBody rest).map (fun p => ('\x0c' :: p.1, p.2))
    | 'n' => (parseStringBody rest).map (fun p => ('\n' :: p.1, p.2))
    | 'r' => (parseStringBody rest).map (fun p => ('\r' :: p.1, p.2))
    | 't' => (parseStringBody rest).map (fun p => ('\t' :: p.1, p.2))
    | 'u' =>
      match rest with
      | a :: b :: c :: d :: rest' =>
        match hexVal a, hexVal b, hexVal c, hexVal d with
        | some x, some y, some z, some w =>
          let n := ((x * 16 + y) * 16 + z) * 16 + w
          if h : n < 0xd800 then
            (parseStringBody rest').map (fun p => (Char.ofNatAux n (by omega) :: p.1, p.2))
          else if h1 : n < 0xe000 then none
          else if h2 : n < 0x110000 then
            (parseStringBody rest').map (fun p =>
              (Char.ofNatAux n (Or.inr (by omega)) :: p.1, p.2))
          else none
        | _, _, _, _ => none
      | _ => none
    | _ => none
  | c :: rest =>
    if c.toNat < 32 then none
    else (parseStringBody rest).map (fun p => (c :: p.1, p.2))

mutual

/-- Fuel-bounded parser for one JSON value (model of `JSON.parse`). -/
def parseVal : Nat → List Char → Option (Json × List Char)
  | 0, _ => none
  | fuel + 1, cs =>
    match skipWs cs with
    | 'n' :: 'u' :: 'l' :: 'l' :: rest => some (.null, rest)
    | 't' :: 'r' :: 'u' :: 'e' :: rest => some (.bool true, rest)
    | 'f' :: 'a' :: 'l' :: 's' :: 'e' :: rest => some (.bool false, rest)
    | '"' :: rest => (parseStringBody rest).map (fun p => (.str ⟨p.1⟩, p.2))
    | '[' :: rest =>
      (match skipWs rest with
       | ']' :: r => some (.arr [], r)
       | _ => (parseElems fuel rest).map (fun p => (.arr p.1, p.2)))
    | '\x7b' :: rest =>
      (match skipWs rest with
       | '\x7d' :: r => some (.obj [], r)
       | _ => (parseFields fuel rest).map (fun p => (.obj p.1, p.2)))
    | rest => (parseNumBody rest).map (fun p => (.num p.1, p.2))

/-- Comma-separated array elements up to the closing bracket. -/
def parseElems : Nat → List Char → Option (List Json × List Char)
  | 0, _ => none
  | fuel + 1, cs =>
    match parseVal fuel cs with
    | none => none
    | some (v, rest) =>
      match skipWs rest with
      | ',' :: r2 => (parseElems fuel r2).map (fun p => (v :: p.1, p.2))
      | ']' :: r2 => some ([v], r2)
      | _ => none

/-- Comma-separated object members up to the closing brace. -/
def parseFields : Nat → List Char → Option (List (String × Json) × List Char)
  | 0, _ => none
  | fuel + 1, cs =>
    match skipWs cs with
    | '"' :: rest =>
      match parseStringBody rest with
      | none => none
      | some (k, r1) =>
        match skipWs r1 with
        | ':' :: r2 =>
          match parseVal fuel r2 with
          | none => none
          | some (v, r3) =>
            match skipWs r3 with
            | ',' :: r4 => (parseFields fuel r4).map (fun p => ((⟨k⟩, v) :: p.1, p.2))
            | '\x7d' :: r4 => some ([(⟨k⟩, v)], r4)
            | _ => none
        | _ => none
    | _ => none

end

/-- `JSON.parse`: `none` models a thrown `SyntaxError`. -/
def Json.parse (s : String) : Option Json :=
  match parseVal (s.length + 1) s.data with
  | some (v, rest) => if (skipWs rest).isEmpty then some v else none
  | none => none

/-- Lowercase hexadecimal digit character. -/
def hexDigitChar (n : Nat) : Char :=
  if n < 10 then Char.ofNat (48 + n) else Char.ofNat (87 + n)

/-- JSON string escaping as done by `JSON.stringify`: quote, backslash and
control characters are escaped, everything else is copied. -/
def escChar (c : Char) : List Char :=
  if c = '"' then ['\\', '"']
  else if c = '\\' then ['\\', '\\']
  else if c = '\x08' then ['\\', 'b']
  else if c = '\x0c' then ['\\', 'f']
  else if c = '\n' then ['\\', 'n']
  else if c = '\r' then ['\\', 'r']
  else if c = '\t' then ['\\', 't']
  else if c.toNat < 32 then
    ['\\', 'u', '0', '0', hexDigitChar (c.toNat / 16), hexDigitChar (c.toNat % 16)]
  else [c]

/-- Serialize a string with quotes and escapes. -/
def stringifyString (s : String) : List Char :=
  '"' :: (s.data.map escChar).flatten ++ ['"']

mutual

/-- Model of `JSON.stringify` (characters of the output). -/
def stringifyChars : Json → List Char
  | .null => "null".data
  | .bool true => "true".data
  | .bool false => "false".data
  | .num n => (toString n).data
  | .str s => stringifyString s
  | .arr es => '[' :: stringifyElems es ++ [']']
  | .obj fs => '\x7b' :: stringifyFields fs ++ ['\x7d']

/-- Comma-separated serialization of array elements. -/
def stringifyElems : List Json → List Char
  | [] => []
  | [v] => stringifyChars v
  | v :: vs => stringifyChars v ++ ',' :: stringifyElems vs

/-- Comma-separated serialization of object members. -/
def stringifyFields : List (String × Json) → List Char
  | [] => []
  | [(k, v)] => stringifyString k ++ ':' :: stringifyChars v
  | (k, v) :: fs => stringifyString k ++ ':' :: stringifyChars v ++ ',' :: stringifyFields fs

end

/-- `JSON.stringify` as a string. -/
def Json.stringify (v : Json) : String :=
  ⟨stringifyChars v⟩

example : Json.parse "[]" = some (Json.arr []) := by rfl

example : Json.parse "null" = some Json.null := by rfl

example : Json.parse "not json" = none := by rfl

example :
    Json.parse (Json.stringify (Json.obj [("a", Json.str "x\"y"), ("b", Json.arr [Json.num 3, Json.null])]))
      = some (Json.obj [("a", Json.str "x\"y"), ("b", Json.arr [Json.num 3, Json.null])]) := by
  rfl

/-! ## StorageManager (`scripts/app.js`, lines 472-620)

Each storage slot is modelled by the string stored under its key
(`none` models `localStorage.getItem` returning `null`). -/

/-- JavaScript `s || dflt` on a possibly-null string (both `null` and the
empty string are falsy). -/
def jsOrDefault (stored : Option String) (dflt : String) : String :=
  match stored with
  | none => dflt
  | some s => if s = "" then dflt else s

/-- `StorageManager.loadUsers`: parse the `users` slot, defaulting the
missing or empty slot to `"[]"`, and return `[]` when parsing throws. -/
def loadUsers (stored : Option String) : Json :=
  match Json.parse (jsOrDefault stored "[]") with
  | some v => v
  | none => Json.arr []

/-- `StorageManager.getCurrentUser`: parse the `currentUser` slot of
`sessionStorage`, defaulting to `"null"`, and return `null` on a parse
error. -/
def getCurrentUser (stored : Option String) : Json :=
  match Json.parse (jsOrDefault stored "null") with
  | some v => v
  | none => Json.null

/-- `StorageManager.loadJobDescriptions`: parse the `jobDescriptions`
slot, defaulting to `"[]"`, and return `[]` on a parse error. -/
def loadJobDescriptions (stored : Option String) : Json :=
  match Json.parse (jsOrDefault stored "[]") with
  | some v => v
  | none => Json.arr []

/-- `StorageManager.saveJobDescriptions`: stringify the full list into
the `jobDescriptions` slot. -/
def saveJobDescriptions (jds : Json) : String :=
  Json.stringify jds

/-- `Array.prototype.unshift`: prepend to an array; on any other value
the method lookup fails (a thrown `TypeError`, modelled by `none`). -/
def jsUnshift (v : Json) : Json → Option Json
  | .arr l => some (.arr (v :: l))
  | _ => none

/-- `StorageManager.saveJobDescription`: load the list, `unshift` the new
entry, save the result. -/
def saveJobDescription (jd : Json) (stored : Option String) : Option String :=
  (jsUnshift jd (loadJobDescriptions stored)).map saveJobDescriptions

/-- `Views.JDView`: the entry the screen shows as "Latest" is
`jobDescriptions[0]`. -/
def jdviewLatest (jds : List Json) : Option Json :=
  jds.head?

/-- The serialization of a JSON array is never the empty string. -/
theorem stringify_arr_ne_empty (l : List Json) : Json.stringify (Json.arr l) ≠ "" := by
  intro h
  have hd : ('[' :: (stringifyElems l ++ [']'])) = ([] : List Char) := congrArg String.data h
  simp at hd

/-- C5: the storage loaders are total: a missing slot or a slot whose
string is not valid JSON yields `[]` (users, job descriptions) or `null`
(current user); a slot holding valid JSON yields the parsed value. -/
theorem storage_loaders_total (stored : String) :
    (loadUsers none = Json.arr [] ∧ getCurrentUser none = Json.null ∧
      loadJobDescriptions none = Json.arr []) ∧
    (Json.parse stored = none →
      loadUsers (some stored) = Json.arr [] ∧
      getCurrentUser (some stored) = Json.null ∧
      loadJobDescriptions (some stored) = Json.arr []) ∧
    (∀ v, Json.parse stored = some v →
      loadUsers (some stored) = v ∧
      getCurrentUser (some stored) = v ∧
      loadJobDescriptions (some stored) = v) := by
  refine ⟨⟨rfl, rfl, rfl⟩, ?_, ?_⟩
  · intro hbad
    by_cases hs : stored = ""
    · subst hs
      exact ⟨rfl, rfl, rfl⟩
    · simp only [loadUsers, getCurrentUser, loadJobDescriptions, jsOrDefault, if_neg hs, hbad]
      exact ⟨trivial, trivial, trivial⟩
  · intro v hv
    by_cases hs : stored = ""
    · subst hs
      simp [Json.parse, parseVal, skipWs, parseNumBody] at hv
    · simp only [loadUsers, getCurrentUser, loadJobDescriptions, jsOrDefault, if_neg hs, hv]
      exact ⟨trivial, trivial, trivial⟩

/-- Witness for C5 at the concrete invalid slot `"oops"` and the valid
slot `"[7]"`. -/
theorem storage_loaders_total_witness :
    (loadUsers (some "oops") = Json.arr [] ∧
      getCurrentUser (some "oops") = Json.null ∧
      loadJobDescriptions (some "oops") = Json.arr []) ∧
    loadUsers (some "[7]") = Json.arr [Json.num 7] :=
  ⟨(storage_loaders_total "oops").2.1 rfl,
   ((storage_loaders_total "[7]").2.2 (Json.arr [Json.num 7]) rfl).1⟩

/-- C4: `saveJobDescription` prepends: with a list `L` previously stored,
saving `jd` succeeds and a subsequent load returns `jd` followed by `L`
unchanged, so the entry `JDView` shows as "Latest" (`jobDescriptions[0]`)
is the one just saved.  The hypothesis `hrt` records that `JSON.parse`
inverts `JSON.stringify` on the new list. -/
theorem saveJobDescription_prepends (jd : Json) (L : List Json) (stored : Option String)
    (hload : loadJobDescriptions stored = Json.arr L)
    (hrt : Json.parse (Json.stringify (Json.arr (jd :: L))) = some (Json.arr (jd :: L))) :
    ∃ s', saveJobDescription jd stored = some s' ∧
      loadJobDescriptions (some s') = Json.arr (jd :: L) ∧
      jdviewLatest (jd :: L) = some jd ∧
      (jd :: L).tail = L := by
  refine ⟨Json.stringify (Json.arr (jd :: L)), ?_, ?_, rfl, rfl⟩
  · simp [saveJobDescription, hload, jsUnshift, saveJobDescriptions]
  · simp only [loadJobDescriptions, jsOrDefault,
      if_neg (stringify_arr_ne_empty (jd :: L)), hrt]

/-- Witness for C4: saving a concrete job description over the stored
list `["a","b"]`. -/
theorem saveJobDescription_prepends_witness :
    ∃ s', saveJobDescription (Json.obj [("title", Json.str "Engineer")])
        (some "[\"a\",\"b\"]") = some s' ∧
      loadJobDescriptions (some s')
        = Json.arr [Json.obj [("title", Json.str "Engineer")], Json.str "a", Json.str "b"] ∧
      jdviewLatest [Json.obj [("title", Json.str "Engineer")], Json.str "a", Json.str "b"]
        = some (Json.obj [("title", Json.str "Engineer")]) ∧
      ([Json.obj [("title", Json.str "Engineer")], Json.str "a", Json.str "b"] : List Json).tail
        = [Json.str "a", Json.str "b"] :=
  saveJobDescription_prepends (Json.obj [("title", Json.str "Engineer")])
    [Json.str "a", Json.str "b"] (some "[\"a\",\"b\"]") rfl rfl

/-! ## AIService sourcing response parsing (`scripts/app.js`, lines 1206-1250) -/

/-- Whitespace removed by JavaScript `String.prototype.trim`. -/
def isJsSpace (c : Char) : Bool :=
  c == ' ' || c == '\t' || c == '\n' || c == '\r' || c == '\x0b' || c == '\x0c'

/-- `response.trim()`. -/
def jsTrimChars (cs : List Char) : List Char :=
  ((cs.dropWhile isJsSpace).reverse.dropWhile isJsSpace).reverse

/-- `s.indexOf(c)` (`-1` when absent). -/
def idxOfChar (cs : List Char) (c : Char) : Int :=
  match cs.findIdx? (· == c) with
  | some i => Int.ofNat i
  | none => -1

/-- `s.lastIndexOf(c)` (`-1` when absent). -/
def lastIdxOfChar (cs : List Char) (c : Char) : Int :=
  match cs.reverse.findIdx? (· == c) with
  | some i => Int.ofNat (cs.length - 1 - i)
  | none => -1

/-- The substring extraction done before `JSON.parse`: trim the response,
then cut from the first `{` to the last `}` when that range is nonempty. -/
def extractJsonStr (response : String) : String :=
  let t := jsTrimChars response.data
  let jsonStart := idxOfChar t '\x7b'
  let jsonEnd := lastIdxOfChar t '\x7d' + 1
  if jsonStart ≠ -1 ∧ jsonEnd > jsonStart then
    ⟨(t.take jsonEnd.toNat).drop jsonStart.toNat⟩
  else ⟨t⟩

/-- Property read on an arbitrary value: non-objects have no own fields
(reads on `null` throw and are handled separately by the caller). -/
def objGetJson : Json → String → Option Json
  | .obj fs, k => objGet fs k
  | _, _ => none

/-- JavaScript `x || dflt` on a possibly-undefined value. -/
def jsOrValue (x : Option Json) (dflt : Json) : Json :=
  match x with
  | some v => if jsTruthy v then v else dflt
  | none => dflt

/-- The hard-coded fallback object returned by the `catch` handler of
`AIService.parseSourcingResponse`. -/
def fallbackStrategy (location : String) : Json :=
  Json.obj [
    ("companies", Json.arr [Json.obj [
      ("name", Json.str "Sample Company"),
      ("linkedinSearch",
        Json.str ("site:linkedin.com/in/ \"Sample Company\" AND \"software developer\" AND \""
          ++ location ++ "\"")),
      ("reason", Json.str "Sample company with relevant talent")]]),
    ("diceSearch",
      Json.str ("\"" ++ location ++ "\" AND \"software developer\" AND \"full time\"")),
    ("summary",
      Json.str "Fallback sourcing strategy generated. Please check your AI settings.")]

/-- `AIService.parseSourcingResponse`: extract the JSON substring, parse
it, and normalize `companies` / `diceSearch` / `summary`; any exception
(a parse error, or the property reads throwing on a parsed `null`) is
caught and answered with `fallbackStrategy`. -/
def parseSourcingResponse (response location : String) : Json :=
  match Json.parse (extractJsonStr response) with
  | none => fallbackStrategy location
  | some .null => fallbackStrategy location
  | some parsed =>
    Json.obj [
      ("companies",
        match objGetJson parsed "companies" with
        | some (.arr es) => Json.arr es
        | _ => Json.arr []),
      ("diceSearch", jsOrValue (objGetJson parsed "diceSearch") (Json.str "")),
      ("summary",
        jsOrValue (objGetJson parsed "summary")
          (Json.str "Sourcing strategy generated successfully."))]

/-- C2, counterexample: on a response with no parsable JSON object the
sourcing parser does not surface an error; it returns the recovered
fallback result, with a nonempty companies list, a Dice search string and
a summary. -/
theorem parseSourcingResponse_fallback_cex :
    parseSourcingResponse "Sorry, I cannot answer that." "Austin, TX"
      = Json.obj [
          ("companies", Json.arr [Json.obj [
            ("name", Json.str "Sample Company"),
            ("linkedinSearch",
              Json.str "site:linkedin.com/in/ \"Sample Company\" AND \"software developer\" AND \"Austin, TX\""),
            ("reason", Json.str "Sample company with relevant talent")]]),
          ("diceSearch",
            Json.str "\"Austin, TX\" AND \"software developer\" AND \"full time\""),
          ("summary",
            Json.str "Fallback sourcing strategy generated. Please check your AI settings.")] := by
  rfl

/-- C2, amended: on every response string whose extracted JSON substring
fails to parse, `parseSourcingResponse` recovers with the hard-coded
fallback strategy instead of surfacing an error. -/
theorem parseSourcingResponse_recovers (response location : String)
    (h : Json.parse (extractJsonStr response) = none) :
    parseSourcingResponse response location = fallbackStrategy location := by
  simp only [parseSourcingResponse, h]

/-- Witness for the amended C2 at a concrete unparsable response. -/
theorem parseSourcingResponse_recovers_witness :
    parseSourcingResponse "no json here" "Remote" = fallbackStrategy "Remote" :=
  parseSourcingResponse_recovers "no json here" "Remote" rfl

/-! ## Router and route guard (`scripts/app.js`, lines 980-994, 2029-2072,
4202-4210) -/

/-- The views the route table can name. -/
inductive ViewId where
  | home
  | login
  | signup
  | sales
  | jdBuilder
  | jdQuestions
  | jdView
  | sourcing
  | recruitment
  | settings
  deriving DecidableEq, Repr

/-- A route-table entry: either a view registered directly or one
registered through `createRouteGuard`. -/
inductive RouteHandler where
  | plain (v : ViewId)
  | guarded (v : ViewId)
  deriving DecidableEq, Repr

/-- `Router.routes` after the `Object.assign` at the end of the file:
the four base routes plus the seven guarded workspace routes. -/
def routesTable (hash : String) : Option RouteHandler :=
  if hash = "" then some (.plain .home)
  else if hash = "#/" then some (.plain .home)
  else if hash = "#/login" then some (.plain .login)
  else if hash = "#/signup" then some (.plain .signup)
  else if hash = "#/sales" then some (.guarded .sales)
  else if hash = "#/jd-builder" then some (.guarded .jdBuilder)
  else if hash = "#/jd-builder/questions" then some (.guarded .jdQuestions)
  else if hash = "#/jd-view" then some (.guarded .jdView)
  else if hash = "#/sourcing" then some (.guarded .sourcing)
  else if hash = "#/recruitment" then some (.guarded .recruitment)
  else if hash = "#/settings" then some (.guarded .settings)
  else none

/-- `Router.render`: `this.routes[currentHash] || Views.Home`. -/
def resolveRoute (hash : String) : RouteHandler :=
  (routesTable hash).getD (.plain .home)

/-- The hashes present in the route table. -/
def registeredHashes : List String :=
  ["", "#/", "#/login", "#/signup", "#/sales", "#/jd-builder",
   "#/jd-builder/questions", "#/jd-view", "#/sourcing", "#/recruitment",
   "#/settings"]

/-- The workspace hashes, all registered through `createRouteGuard`. -/
def workspaceHashes : List String :=
  ["#/sales", "#/jd-builder", "#/jd-builder/questions", "#/jd-view",
   "#/sourcing", "#/recruitment", "#/settings"]

/-- `createRouteGuard`: render the wrapped view only with a logged-in
user; otherwise notify, redirect the hash to `#/login` and render the
Login view.  The second component is the hash redirect performed. -/
def createRouteGuard (f : Unit → ViewId) (session : Option String) : ViewId × Option String :=
  if !jsTruthy (getCurrentUser session) then (ViewId.login, some "#/login")
  else (f (), none)

/-- C7: routing is a pure lookup: the empty hash and `#/` map to Home,
each registered route maps to its view, and every unregistered hash falls
back to Home. -/
theorem router_is_pure_lookup (hash : String) :
    resolveRoute "" = .plain .home ∧
    resolveRoute "#/" = .plain .home ∧
    resolveRoute "#/login" = .plain .login ∧
    resolveRoute "#/signup" = .plain .signup ∧
    resolveRoute "#/sales" = .guarded .sales ∧
    resolveRoute "#/jd-builder" = .guarded .jdBuilder ∧
    resolveRoute "#/jd-builder/questions" = .guarded .jdQuestions ∧
    resolveRoute "#/jd-view" = .guarded .jdView ∧
    resolveRoute "#/sourcing" = .guarded .sourcing ∧
    resolveRoute "#/recruitment" = .guarded .recruitment ∧
    resolveRoute "#/settings" = .guarded .settings ∧
    (hash ∉ registeredHashes → resolveRoute hash = .plain .home) := by
  refine ⟨rfl, rfl, rfl, rfl, rfl, rfl, rfl, rfl, rfl, rfl, rfl, ?_⟩
  intro h
  simp only [registeredHashes, List.mem_cons, List.not_mem_nil, or_false, not_or] at h
  obtain ⟨h1, h2, h3, h4, h5, h6, h7, h8, h9, h10, h11⟩ := h
  simp [resolveRoute, routesTable, h1, h2, h3, h4, h5, h6, h7, h8, h9, h10, h11]

/-- Witness for C7 at the concrete unregistered hash `#/bogus`. -/
theorem router_is_pure_lookup_witness :
    resolveRoute "#/bogus" = .plain .home :=
  (router_is_pure_lookup "#/bogus").2.2.2.2.2.2.2.2.2.2.2 (by decide)

/-- C9: the guard returns the Login view with a `#/login` redirect when
no current user is stored (the stored value parses to something falsy),
returns exactly the wrapped view otherwise, and every workspace route is
registered through the guard. -/
theorem routeGuard_protects_workspace (f : Unit → ViewId) (session : Option String) :
    (jsTruthy (getCurrentUser session) = false →
      createRouteGuard f session = (ViewId.login, some "#/login")) ∧
    (jsTruthy (getCurrentUser session) = true →
      createRouteGuard f session = (f (), none)) ∧
    (∀ h ∈ workspaceHashes, ∃ v, routesTable h = some (RouteHandler.guarded v)) := by
  refine ⟨fun h => by simp [createRouteGuard, h], fun h => by simp [createRouteGuard, h], ?_⟩
  intro h hm
  simp only [workspaceHashes, List.mem_cons, List.not_mem_nil, or_false] at hm
  rcases hm with rfl | rfl | rfl | rfl | rfl | rfl | rfl
  · exact ⟨.sales, rfl⟩
  · exact ⟨.jdBuilder, rfl⟩
  · exact ⟨.jdQuestions, rfl⟩
  · exact ⟨.jdView, rfl⟩
  · exact ⟨.sourcing, rfl⟩
  · exact ⟨.recruitment, rfl⟩
  · exact ⟨.settings, rfl⟩

/-- Witness for C9: with no session the guard redirects to Login; with a
logged-in user it renders the wrapped view. -/
theorem routeGuard_protects_workspace_witness :
    createRouteGuard (fun _ => ViewId.sales) none = (ViewId.login, some "#/login") ∧
    createRouteGuard (fun _ => ViewId.sales)
        (some "\x7b\"username\":\"u\"\x7d") = (ViewId.sales, none) :=
  ⟨(routeGuard_protects_workspace (fun _ => ViewId.sales) none).1 rfl,
   (routeGuard_protects_workspace (fun _ => ViewId.sales)
      (some "\x7b\"username\":\"u\"\x7d")).2.1 rfl⟩

/-! ## JD questionnaire (`scripts/app.js`, lines 3486-3711) -/

/-- One questionnaire entry: its answer key and its optional display
condition. -/
structure Question where
  key : String
  cond : Option (JsObj → Bool)

/-- The `condition` closure of the `duration` question:
`(answers) => answers.hireType === "Contract"`. -/
def contractCondition (answers : JsObj) : Bool :=
  match objGet answers "hireType" with
  | some (.str s) => s == "Contract"
  | _ => false

/-- `Views.JDQuestions.questions`: the 13 questions, in source order;
only `duration` carries a condition. -/
def jdQuestions : List Question :=
  [⟨"role", none⟩, ⟨"location", none⟩, ⟨"timezone", none⟩, ⟨"hireType", none⟩,
   ⟨"duration", some contractCondition⟩,
   ⟨"domain", none⟩, ⟨"skills", none⟩, ⟨"goals", none⟩, ⟨"kpi", none⟩,
   ⟨"superstar", none⟩, ⟨"ninety", none⟩, ⟨"benefits", none⟩,
   ⟨"applicationProcess", none⟩]

/-- `getFilteredQuestions`: keep a question unless it has a condition
that evaluates to false on the current answers. -/
def getFilteredQuestions (answers : JsObj) : List Question :=
  jdQuestions.filter (fun q =>
    match q.cond with
    | none => true
    | some c => c answers)

/-- The condition holds exactly when the `hireType` answer is the string
`"Contract"`. -/
theorem contractCondition_eq_true_iff (answers : JsObj) :
    contractCondition answers = true ↔ objGet answers "hireType" = some (Json.str "Contract") := by
  unfold contractCondition
  constructor
  · intro h
    match hv : objGet answers "hireType" with
    | some (.str s) =>
      rw [hv] at h
      simp only [beq_iff_eq] at h
      rw [h]
    | none | some .null | some (.bool _) | some (.num _) | some (.arr _) | some (.obj _) =>
      rw [hv] at h
      cases h
  · intro h
    rw [h]
    simp

/-- C6: the questionnaire has a fixed order and the `duration` question
is included exactly when the `hireType` answer is `"Contract"`: with it
the filtered list is all 13 questions, otherwise the other 12 in the same
relative order. -/
theorem questionnaire_contract_gating (answers : JsObj) :
    (objGet answers "hireType" = some (Json.str "Contract") →
      (getFilteredQuestions answers).map Question.key
        = ["role", "location", "timezone", "hireType", "duration", "domain",
           "skills", "goals", "kpi", "superstar", "ninety", "benefits",
           "applicationProcess"]) ∧
    (objGet answers "hireType" ≠ some (Json.str "Contract") →
      (getFilteredQuestions answers).map Question.key
        = ["role", "location", "timezone", "hireType", "domain",
           "skills", "goals", "kpi", "superstar", "ninety", "benefits",
           "applicationProcess"]) := by
  constructor
  · intro h
    have hc : contractCondition answers = true := (contractCondition_eq_true_iff answers).mpr h
    simp [getFilteredQuestions, jdQuestions, List.filter, hc]
  · intro h
    have hc : contractCondition answers = false := by
      cases hcc : contractCondition answers
      · rfl
      · exact absurd ((contractCondition_eq_true_iff answers).mp hcc) h
    simp [getFilteredQuestions, jdQuestions, List.filter, hc]

/-- Witness for C6 at the concrete answers `{hireType: "Contract"}` and
`{hireType: "Full-time"}`. -/
theorem questionnaire_contract_gating_witness :
    (getFilteredQuestions [("hireType", Json.str "Contract")]).map Question.key
        = ["role", "location", "timezone", "hireType", "duration", "domain",
           "skills", "goals", "kpi", "superstar", "ninety", "benefits",
           "applicationProcess"] ∧
    (getFilteredQuestions [("hireType", Json.str "Full-time")]).map Question.key
        = ["role", "location", "timezone", "hireType", "domain",
           "skills", "goals", "kpi", "superstar", "ninety", "benefits",
           "applicationProcess"] :=
  ⟨(questionnaire_contract_gating [("hireType", Json.str "Contract")]).1 rfl,
   (questionnaire_contract_gating [("hireType", Json.str "Full-time")]).2 (by simp [objGet])⟩

/-! ## Proxy server rate limiter (`server/index.js`, reproduced in the
repository README: `let last = 0` and the middleware comparing
`Date.now() - last < 750`) -/

/-- An incoming proxy request: origin and endpoint are carried only to
state that the limiter ignores them. -/
structure ProxyRequest where
  clientIp : String
  path : String
  now : Int

/-- The rate window in milliseconds (`750`). -/
def rateLimitWindowMs : Int := 750

/-- The rate-limit middleware: one shared `last` timestamp; a request
within the window of `last` is rejected (`false`, HTTP 429) and leaves
`last` unchanged; otherwise it is accepted and `last` becomes its
arrival time. -/
def rateLimitMiddleware (last : Int) (req : ProxyRequest) : Bool × Int :=
  if req.now - last < rateLimitWindowMs then (false, last)
  else (true, req.now)

/-- C10: the proxy's rate limiting is a single global timestamp
comparison: a request is rejected iff it arrives within the window of the
shared `last` timestamp, the decision and the new state are independent
of the client and the endpoint, and `last` is updated only on accepted
requests. -/
theorem rate_limiter_single_global_timestamp (last : Int) (req : ProxyRequest) :
    ((rateLimitMiddleware last req).1 = false ↔ req.now - last < rateLimitWindowMs) ∧
    (∀ req' : ProxyRequest, req'.now = req.now →
      rateLimitMiddleware last req' = rateLimitMiddleware last req) ∧
    ((rateLimitMiddleware last req).1 = true → (rateLimitMiddleware last req).2 = req.now) ∧
    ((rateLimitMiddleware last req).1 = false → (rateLimitMiddleware last req).2 = last) := by
  refine ⟨?_, ?_, ?_, ?_⟩
  · by_cases h : req.now - last < rateLimitWindowMs <;> simp [rateLimitMiddleware, h]
  · intro req' hnow
    simp [rateLimitMiddleware, hnow]
  · by_cases h : req.now - last < rateLimitWindowMs <;> simp [rateLimitMiddleware, h]
  · by_cases h : req.now - last < rateLimitWindowMs <;> simp [rateLimitMiddleware, h]

/-- Witness for C10: a request 100 ms after `last` is rejected whatever
its client or endpoint; one 800 ms later is accepted. -/
theorem rate_limiter_single_global_timestamp_witness :
    ((rateLimitMiddleware 0 ⟨"10.0.0.1", "/api/generate", 100⟩).1 = false ↔
      (100 : Int) - 0 < rateLimitWindowMs) ∧
    rateLimitMiddleware 0 ⟨"192.168.0.9", "/api/sourcing", 100⟩
      = rateLimitMiddleware 0 ⟨"10.0.0.1", "/api/generate", 100⟩ ∧
    (rateLimitMiddleware 0 ⟨"10.0.0.1", "/api/generate", 800⟩).1 = true :=
  ⟨(rate_limiter_single_global_timestamp 0 ⟨"10.0.0.1", "/api/generate", 100⟩).1,
   (rate_limiter_single_global_timestamp 0 ⟨"10.0.0.1", "/api/generate", 100⟩).2.1
      ⟨"192.168.0.9", "/api/sourcing", 100⟩ rfl,
   by decide⟩

/-! ## AIService.generateViaProxy (`scripts/app.js`, lines 1009-1054)

The handler copies the answers (`{...answers}`), deletes `company`, joins
array-valued `skills` / `benefits` with `", "`, and posts
`{answers, model}`; the caller's object is untouched because every
mutation below acts on the copy. -/

mutual

/-- `String(x)` as used by `Array.prototype.join` (`null` and `undefined`
become the empty string). -/
def jsJoinElem : Json → String
  | .null => ""
  | .bool b => if b then "true" else "false"
  | .num n => toString n
  | .str s => s
  | .arr es => jsJoinNested es
  | .obj _ => "[object Object]"

/-- Nested arrays stringify as their elements joined with `","`. -/
def jsJoinNested : List Json → String
  | [] => ""
  | [v] => jsJoinElem v
  | v :: vs => jsJoinElem v ++ "," ++ jsJoinNested vs

end

/-- `Array.prototype.join(sep)`. -/
def jsJoin (es : List Json) (sep : String) : String :=
  match es with
  | [] => ""
  | [v] => jsJoinElem v
  | v :: vs => jsJoinElem v ++ sep ++ jsJoin vs sep

/-- `Array.isArray` on a possibly-undefined value. -/
def isArrayOpt : Option Json → Bool
  | some (.arr _) => true
  | _ => false

/-- The elements of an array value (only consulted when `isArrayOpt`). -/
def arrElemsOpt : Option Json → List Json
  | some (.arr es) => es
  | _ => []

/-- The mutation sequence of `generateViaProxy` on the copied answers:
delete `company`, then join `skills` and `benefits` when they are
(truthy) arrays. -/
def answersForAPI (answers : JsObj) : JsObj :=
  let a1 := objDelete answers "company"
  let a2 :=
    if jsTruthyOpt (objGet a1 "skills") && isArrayOpt (objGet a1 "skills") then
      objSet a1 "skills" (Json.str (jsJoin (arrElemsOpt (objGet a1 "skills")) ", "))
    else a1
  let a3 :=
    if jsTruthyOpt (objGet a2 "benefits") && isArrayOpt (objGet a2 "benefits") then
      objSet a2 "benefits" (Json.str (jsJoin (arrElemsOpt (objGet a2 "benefits")) ", "))
    else a2
  a3

/-- The request body `{answers: answersForAPI, model}` sent to
`/api/generate`. -/
def generateRequestBody (answers : JsObj) (model : String) : Json :=
  Json.obj [("answers", Json.obj (answersForAPI answers)), ("model", Json.str model)]

/-- The claim's per-field description: `skills` and `benefits` are
replaced by their elements joined with `", "` when they hold arrays;
every other field is unchanged. -/
def specTransformField (p : String × Json) : String × Json :=
  if p.1 == "skills" || p.1 == "benefits" then
    match p.2 with
    | .arr es => (p.1, Json.str (jsJoin es ", "))
    | _ => p
  else p

/-- The claim's description of the whole body: the input answers with the
`company` field removed and `specTransformField` applied to each field. -/
def specAnswersForAPI (answers : JsObj) : JsObj :=
  (answers.filter (fun p => p.1 != "company")).map specTransformField

/-- Join-at-one-key as a per-field function. -/
def joinIfArrAt (k : String) (p : String × Json) : String × Json :=
  if p.1 == k then
    match p.2 with
    | .arr es => (p.1, Json.str (jsJoin es ", "))
    | _ => p
  else p

/-- A truthiness test is redundant next to `Array.isArray` (arrays are
always truthy). -/
theorem truthyOpt_and_isArrayOpt (x : Option Json) :
    (jsTruthyOpt x && isArrayOpt x) = isArrayOpt x := by
  cases x with
  | none => rfl
  | some v => cases v <;> simp [jsTruthyOpt, jsTruthy, isArrayOpt]

/-- `joinIfArrAt` does not change the key. -/
theorem fst_joinIfArrAt (k : String) (p : String × Json) : (joinIfArrAt k p).1 = p.1 := by
  by_cases h : (p.1 == k) = true
  · cases hv : p.2 <;> simp [joinIfArrAt, h, hv]
  · simp [joinIfArrAt, h]

/-- With no duplicate keys, a field of the object is what `objGet`
returns for its key. -/
theorem objGet_eq_some_of_mem {l : JsObj} (hnd : (l.map Prod.fst).Nodup) {k : String}
    {v : Json} (h : (k, v) ∈ l) : objGet l k = some v := by
  induction l with
  | nil => cases h
  | cons p rest ih =>
    rcases List.mem_cons.mp h with h | h
    · rw [← h]
      simp [objGet]
    · by_cases hbeq : (p.1 == k) = true
      · exfalso
        have hk : p.1 = k := eq_of_beq hbeq
        have hkin : k ∈ rest.map Prod.fst := List.mem_map.mpr ⟨(k, v), h, rfl⟩
        rw [List.map_cons] at hnd
        exact (List.nodup_cons.mp hnd).1 (hk ▸ hkin)
      · rw [List.map_cons] at hnd
        simp only [objGet, hbeq, if_false, Bool.false_eq_true]
        exact ih (List.nodup_cons.mp hnd).2 h

/-- Writing an existing key rewrites the fields in place. -/
theorem objSet_eq_map_of_has (l : JsObj) (k : String) (v : Json)
    (h : objHasKey l k = true) : objSet l k v = l.map (replaceIfKey k v) := by
  simp [objSet, h]

/-- One conditional join step of `answersForAPI` is a per-field map. -/
theorem arrayJoinStep_eq_map (l : JsObj) (hnd : (l.map Prod.fst).Nodup) (k : String) :
    (if jsTruthyOpt (objGet l k) && isArrayOpt (objGet l k) then
        objSet l k (Json.str (jsJoin (arrElemsOpt (objGet l k)) ", "))
      else l)
      = l.map (joinIfArrAt k) := by
  rw [truthyOpt_and_isArrayOpt]
  by_cases hc : isArrayOpt (objGet l k) = true
  · rw [if_pos hc]
    have hex : ∃ es, objGet l k = some (Json.arr es) := by
      cases hv : objGet l k with
      | none => rw [hv] at hc; simp [isArrayOpt] at hc
      | some v =>
        cases v with
        | arr es => exact ⟨es, rfl⟩
        | null | bool _ | num _ | str _ | obj _ => rw [hv] at hc; simp [isArrayOpt] at hc
    obtain ⟨es, hes⟩ := hex
    have hhas : objHasKey l k = true := by simp [objHasKey, hes]
    rw [hes, objSet_eq_map_of_has l k _ hhas]
    refine List.map_congr_left ?_
    intro p hp
    by_cases hk : (p.1 == k) = true
    · have hk' : p.1 = k := eq_of_beq hk
      have hmem : (k, p.2) ∈ l := by rw [← hk']; exact hp
      have hval := objGet_eq_some_of_mem hnd hmem
      rw [hes] at hval
      injection hval with hval
      simp [replaceIfKey, joinIfArrAt, hk, ← hval, arrElemsOpt, hk']
    · simp [replaceIfKey, joinIfArrAt, hk]
  · rw [if_neg hc]
    have hpt : ∀ p ∈ l, joinIfArrAt k p = id p := by
      intro p hp
      by_cases hk : (p.1 == k) = true
      · cases hv : p.2 with
        | arr es =>
          exfalso
          have hk' : p.1 = k := eq_of_beq hk
          have hmem : (k, p.2) ∈ l := by rw [← hk']; exact hp
          have hval := objGet_eq_some_of_mem hnd hmem
          rw [hv] at hval
          rw [hval] at hc
          exact hc rfl
        | null | bool _ | num _ | str _ | obj _ => simp [joinIfArrAt, hk, hv]
      · simp [joinIfArrAt, hk]
    rw [List.map_congr_left hpt, List.map_id]

/-- Applying the `skills` join then the `benefits` join to a field is the
claim's single per-field transformation. -/
theorem joinIfArrAt_comp (p : String × Json) :
    joinIfArrAt "benefits" (joinIfArrAt "skills" p) = specTransformField p := by
  obtain ⟨k, v⟩ := p
  by_cases h1 : (k == "skills") = true
  · have hk : k = "skills" := eq_of_beq h1
    subst hk
    cases v <;> simp [joinIfArrAt, specTransformField]
  · by_cases h2 : (k == "benefits") = true
    · have hk : k = "benefits" := eq_of_beq h2
      subst hk
      cases v <;> simp [joinIfArrAt, specTransformField]
    · cases v <;> simp [joinIfArrAt, specTransformField, h1, h2]

/-- C3: the request body `generateViaProxy` sends equals the input
answers with `company` removed, array-valued `skills` / `benefits` joined
with `", "`, and every other field unchanged (the caller's object is not
mutated: the source mutates only the `{...answers}` copy, which this pure
model reflects). -/
theorem generateViaProxy_request_body (answers : JsObj) (model : String)
    (hnd : (answers.map Prod.fst).Nodup) :
    answersForAPI answers = specAnswersForAPI answers ∧
    generateRequestBody answers model
      = Json.obj [("answers", Json.obj (specAnswersForAPI answers)),
                  ("model", Json.str model)] := by
  have hl : ((objDelete answers "company").map Prod.fst).Nodup := by
    refine hnd.sublist ?_
    exact List.Sublist.map Prod.fst (List.filter_sublist answers)
  have hfst : ((objDelete answers "company").map (joinIfArrAt "skills")).map Prod.fst
      = (objDelete answers "company").map Prod.fst := by
    rw [List.map_map]
    exact List.map_congr_left (fun p _ => fst_joinIfArrAt "skills" p)
  have h1 := arrayJoinStep_eq_map (objDelete answers "company") hl "skills"
  have h2 := arrayJoinStep_eq_map ((objDelete answers "company").map (joinIfArrAt "skills"))
    (by rw [hfst]; exact hl) "benefits"
  have hmain : answersForAPI answers = specAnswersForAPI answers := by
    simp only [answersForAPI, h1, h2, specAnswersForAPI]
    rw [List.map_map]
    exact List.map_congr_left (fun p _ => joinIfArrAt_comp p)
  exact ⟨hmain, by rw [generateRequestBody, hmain]⟩

/-- Witness for C3 at concrete answers with a company field and an
array-valued skills field. -/
theorem generateViaProxy_request_body_witness :
    answersForAPI
        [("role", Json.str "Engineer"), ("company", Json.str "Acme"),
         ("skills", Json.arr [Json.str "Java", Json.str "SQL"])]
      = specAnswersForAPI
        [("role", Json.str "Engineer"), ("company", Json.str "Acme"),
         ("skills", Json.arr [Json.str "Java", Json.str "SQL"])] ∧
    generateRequestBody
        [("role", Json.str "Engineer"), ("company", Json.str "Acme"),
         ("skills", Json.arr [Json.str "Java", Json.str "SQL"])] "gpt-4o-mini"
      = Json.obj [("answers", Json.obj (specAnswersForAPI
          [("role", Json.str "Engineer"), ("company", Json.str "Acme"),
           ("skills", Json.arr [Json.str "Java", Json.str "SQL"])])),
          ("model", Json.str "gpt-4o-mini")] :=
  generateViaProxy_request_body
    [("role", Json.str "Engineer"), ("company", Json.str "Acme"),
     ("skills", Json.arr [Json.str "Java", Json.str "SQL"])] "gpt-4o-mini" (by decide)

/-! ## PasswordSecurity (`scripts/app.js`, lines 72-144)

`crypto.subtle.deriveBits` (PBKDF2-SHA-256, 100000 iterations, 256 bits)
is a browser primitive; it is abstracted as a `derive` parameter mapping
a password and salt bytes to digest bytes.  The rest of `hashPassword` /
`verifyPassword` — hex encoding of the digest, comma-joined decimal
serialization of the salt, and its re-parsing via `split(",").map(Number)`
— is embedded below. -/

/-- The result object of `PasswordSecurity.hashPassword`. -/
structure HashResult where
  hashedPassword : String
  salt : String
  deriving Repr

/-- `Array.prototype.join(",")` on character lists. -/
def joinCommaChars : List (List Char) → List Char
  | [] => []
  | [x] => x
  | x :: xs => x ++ ',' :: joinCommaChars xs

/-- `Array.from(salt).join(",")`: the salt bytes in decimal, joined with
commas. -/
def joinCommaNat (bytes : List Nat) : String :=
  ⟨joinCommaChars (bytes.map (fun b => (Nat.repr b).data))⟩

/-- `String.prototype.split(",")` on character lists. -/
def splitCommaChars : List Char → List (List Char)
  | [] => [[]]
  | c :: rest =>
    if c == ',' then [] :: splitCommaChars rest
    else
      match splitCommaChars rest with
      | [] => [[c]]
      | g :: gs => (c :: g) :: gs

/-- `Number(s)` on a digit string (the only shape produced by the salt
serialization). -/
def jsNumberDigits (cs : List Char) : Nat :=
  cs.foldl (fun a c => a * 10 + (c.toNat - 48)) 0

/-- `salt.split(",").map(Number)`: recover the salt bytes. -/
def parseSaltString (s : String) : List Nat :=
  (splitCommaChars s.data).map jsNumberDigits

/-- `b.toString(16)` digits (most significant first). -/
def toBase16Digits (fuel n : Nat) : List Char :=
  match fuel with
  | 0 => []
  | fuel + 1 =>
    if n < 16 then [hexDigitChar n]
    else toBase16Digits fuel (n / 16) ++ [hexDigitChar (n % 16)]

/-- `b.toString(16)`. -/
def jsToString16 (n : Nat) : List Char :=
  toBase16Digits (n + 1) n

/-- `.padStart(2, "0")`. -/
def padStart2 (cs : List Char) : List Char :=
  if cs.length < 2 then List.replicate (2 - cs.length) '0' ++ cs else cs

/-- `b.toString(16).padStart(2, "0")`. -/
def hexByte (b : Nat) : List Char :=
  padStart2 (jsToString16 b)

/-- The digest hex string: `Array.from(bytes).map(hexByte).join("")`. -/
def toHex (bytes : List Nat) : String :=
  ⟨(bytes.map hexByte).flatten⟩

/-- Decode one two-character hex pair. -/
def hexPairVal : List Char → Option Nat
  | [c1, c2] =>
    match hexVal c1, hexVal c2 with
    | some a, some b => some (a * 16 + b)
    | _, _ => none
  | _ => none

/-- Decode a hex string two characters at a time. -/
def decodeHex : List Char → Option (List Nat)
  | [] => some []
  | c1 :: c2 :: rest =>
    (match hexPairVal [c1, c2], decodeHex rest with
     | some b, some bs => some (b :: bs)
     | _, _ => none)
  | _ => none

/-- `PasswordSecurity.hashPassword(password)` with a fresh salt: the
random `crypto.getRandomValues` bytes are passed explicitly. -/
def hashPasswordFresh (derive : String → List Nat → List Nat) (password : String)
    (saltBytes : List Nat) : HashResult :=
  { hashedPassword := toHex (derive password saltBytes),
    salt := joinCommaNat saltBytes }

/-- `PasswordSecurity.hashPassword(password, salt)` with a string salt:
the salt is re-parsed via `split(",").map(Number)`. -/
def hashPasswordWithSalt (derive : String → List Nat → List Nat)
    (password salt : String) : HashResult :=
  hashPasswordFresh derive password (parseSaltString salt)

/-- `PasswordSecurity.verifyPassword`: re-hash with the stored salt and
compare hex strings. -/
def verifyPassword (derive : String → List Nat → List Nat)
    (password hashedPassword salt : String) : Bool :=
  (hashPasswordWithSalt derive password salt).hashedPassword == hashedPassword

set_option maxRecDepth 4096

/-- Each byte's padded hex pair has width 2 and decodes back to the
byte. -/
theorem hexByte_spec :
    ∀ b : Fin 256, (hexByte b.val).length = 2 ∧ hexPairVal (hexByte b.val) = some b.val := by
  decide

/-- Each byte's decimal representation is comma-free and `Number` parses
it back. -/
theorem byteRepr_roundtrip :
    ∀ b : Fin 256, jsNumberDigits (Nat.repr b.val).data = b.val ∧
      ',' ∉ (Nat.repr b.val).data := by
  decide

/-- Splitting after a comma-free chunk peels it off. -/
theorem splitComma_append (x rest : List Char) (hx : ',' ∉ x) :
    splitCommaChars (x ++ ',' :: rest) = x :: splitCommaChars rest := by
  induction x with
  | nil => simp [splitCommaChars]
  | cons c cs ih =>
    have hcne : c ≠ ',' := by
      intro h
      subst h
      exact hx (List.mem_cons_self _ _)
    have hc : (c == ',') = false := beq_eq_false_iff_ne.mpr hcne
    have hcs : ',' ∉ cs := fun hm => hx (List.mem_cons_of_mem c hm)
    have hstep : splitCommaChars (c :: (cs ++ ',' :: rest))
        = match splitCommaChars (cs ++ ',' :: rest) with
          | [] => [[c]]
          | g :: gs => (c :: g) :: gs := by
      simp [splitCommaChars, hc]
    rw [List.cons_append, hstep, ih hcs]

/-- A comma-free string splits into itself. -/
theorem splitComma_single (x : List Char) (hx : ',' ∉ x) :
    splitCommaChars x = [x] := by
  induction x with
  | nil => rfl
  | cons c cs ih =>
    have hcne : c ≠ ',' := by
      intro h
      subst h
      exact hx (List.mem_cons_self _ _)
    have hc : (c == ',') = false := beq_eq_false_iff_ne.mpr hcne
    have hcs : ',' ∉ cs := fun hm => hx (List.mem_cons_of_mem c hm)
    have hstep : splitCommaChars (c :: cs)
        = match splitCommaChars cs with
          | [] => [[c]]
          | g :: gs => (c :: g) :: gs := by
      simp [splitCommaChars, hc]
    rw [hstep, ih hcs]

/-- The salt serialization round-trips on nonempty byte lists. -/
theorem parseSalt_joinComma (bytes : List Nat) (hne : bytes ≠ [])
    (hb : ∀ b ∈ bytes, b < 256) :
    parseSaltString (joinCommaNat bytes) = bytes := by
  induction bytes with
  | nil => exact absurd rfl hne
  | cons b bs ih =>
    have hb0 : b < 256 := hb b (List.mem_cons_self b bs)
    have hrt := byteRepr_roundtrip ⟨b, hb0⟩
    cases bs with
    | nil =>
      show (splitCommaChars (joinCommaChars [(Nat.repr b).data])).map jsNumberDigits = [b]
      rw [show joinCommaChars [(Nat.repr b).data] = (Nat.repr b).data from rfl]
      rw [splitComma_single _ hrt.2]
      simp [hrt.1]
    | cons b2 bs2 =>
      have hbs : (b2 :: bs2 : List Nat) ≠ [] := by simp
      have hbmem : ∀ x ∈ b2 :: bs2, x < 256 := fun x hx => hb x (List.mem_cons_of_mem b hx)
      have ihr := ih hbs hbmem
      show (splitCommaChars (joinCommaChars ((Nat.repr b).data ::
        (b2 :: bs2).map (fun x => (Nat.repr x).data)))).map jsNumberDigits = b :: b2 :: bs2
      rw [show joinCommaChars ((Nat.repr b).data :: (b2 :: bs2).map (fun x => (Nat.repr x).data))
            = (Nat.repr b).data ++ ',' :: joinCommaChars ((b2 :: bs2).map (fun x => (Nat.repr x).data))
          from rfl]
      rw [splitComma_append _ _ hrt.2]
      rw [List.map_cons, hrt.1]
      exact congrArg (b :: ·) ihr

/-- Hex encoding decodes back to the bytes. -/
theorem decodeHex_toHex (bytes : List Nat) (hb : ∀ b ∈ bytes, b < 256) :
    decodeHex (toHex bytes).data = some bytes := by
  induction bytes with
  | nil => rfl
  | cons b bs ih =>
    have hb0 : b < 256 := hb b (List.mem_cons_self b bs)
    have hspec := hexByte_spec ⟨b, hb0⟩
    obtain ⟨c1, c2, hc⟩ : ∃ c1 c2, hexByte b = [c1, c2] := by
      match hx : hexByte b with
      | [c1, c2] => exact ⟨c1, c2, rfl⟩
      | [] => rw [hx] at hspec; cases hspec.1
      | [c] => rw [hx] at hspec; cases hspec.1
      | c1 :: c2 :: c3 :: rest => rw [hx] at hspec; cases hspec.1
    have ihr := ih (fun x hx => hb x (List.mem_cons_of_mem b hx))
    show decodeHex ((hexByte b ++ ((bs.map hexByte).flatten : List Char))) = some (b :: bs)
    rw [hc]
    have hpair := hspec.2
    rw [hc] at hpair
    show (match hexPairVal [c1, c2], decodeHex (bs.map hexByte).flatten with
      | some b, some bs => some (b :: bs)
      | _, _ => none) = some (b :: bs)
    rw [hpair, show decodeHex (bs.map hexByte).flatten = some bs from ihr]

/-- Hex encoding is injective on byte lists. -/
theorem toHex_inj {xs ys : List Nat} (hx : ∀ b ∈ xs, b < 256) (hy : ∀ b ∈ ys, b < 256)
    (h : toHex xs = toHex ys) : xs = ys := by
  have hdx := decodeHex_toHex xs hx
  have hdy := decodeHex_toHex ys hy
  rw [congrArg String.data h] at hdx
  rw [hdx] at hdy
  injection hdy

/-- C8: hashing then verifying round-trips — the comma-serialized salt
survives re-parsing, so `verifyPassword` recomputes the same digest — and
any candidate password whose digest under that salt differs is
rejected. -/
theorem password_hash_verify_roundtrip (derive : String → List Nat → List Nat)
    (password : String) (saltBytes : List Nat)
    (hne : saltBytes ≠ []) (hb : ∀ b ∈ saltBytes, b < 256) :
    verifyPassword derive password
        (hashPasswordFresh derive password saltBytes).hashedPassword
        (hashPasswordFresh derive password saltBytes).salt = true ∧
    (∀ candidate : String,
      derive candidate saltBytes ≠ derive password saltBytes →
      (∀ b ∈ derive candidate saltBytes, b < 256) →
      (∀ b ∈ derive password saltBytes, b < 256) →
      verifyPassword derive candidate
        (hashPasswordFresh derive password saltBytes).hashedPassword
        (hashPasswordFresh derive password saltBytes).salt = false) := by
  have hsalt : parseSaltString (joinCommaNat saltBytes) = saltBytes :=
    parseSalt_joinComma saltBytes hne hb
  constructor
  · simp [verifyPassword, hashPasswordWithSalt, hashPasswordFresh, hsalt]
  · intro candidate hdiff hbc hbp
    simp only [verifyPassword, hashPasswordWithSalt, hashPasswordFresh, hsalt]
    rw [beq_eq_false_iff_ne]
    intro heq
    exact hdiff (toHex_inj hbc hbp heq)

/-- Witness for C8 with a concrete two-byte salt and a `derive` function
separating two concrete passwords. -/
theorem password_hash_verify_roundtrip_witness :
    (verifyPassword (fun p _ => if p = "Secret1!" then [0, 1] else [2, 3]) "Secret1!"
      (hashPasswordFresh (fun p _ => if p = "Secret1!" then [0, 1] else [2, 3])
        "Secret1!" [10, 200]).hashedPassword
      (hashPasswordFresh (fun p _ => if p = "Secret1!" then [0, 1] else [2, 3])
        "Secret1!" [10, 200]).salt = true) ∧
    (verifyPassword (fun p _ => if p = "Secret1!" then [0, 1] else [2, 3]) "WrongPw9#"
      (hashPasswordFresh (fun p _ => if p = "Secret1!" then [0, 1] else [2, 3])
        "Secret1!" [10, 200]).hashedPassword
      (hashPasswordFresh (fun p _ => if p = "Secret1!" then [0, 1] else [2, 3])
        "Secret1!" [10, 200]).salt = false) :=
  ⟨(password_hash_verify_roundtrip (fun p _ => if p = "Secret1!" then [0, 1] else [2, 3])
      "Secret1!" [10, 200] (by simp) (by decide)).1,
   (password_hash_verify_roundtrip (fun p _ => if p = "Secret1!" then [0, 1] else [2, 3])
      "Secret1!" [10, 200] (by simp) (by decide)).2 "WrongPw9#" (by decide) (by decide)
      (by decide)⟩

/-! ## Signup and login persistence (`scripts/app.js`, lines 1548-1663,
1742-1796, 4167-4187) -/

/-- `Views.Signup.handleSubmit`: the user object created after hashing —
the plain password is never stored. -/
def signupNewUser (username email first last : String) (hr : HashResult)
    (createdAt : String) : JsObj :=
  [("username", Json.str username), ("email", Json.str email),
   ("first", Json.str first), ("last", Json.str last),
   ("hashedPassword", Json.str hr.hashedPassword), ("salt", Json.str hr.salt),
   ("createdAt", Json.str createdAt)]

/-- `users.push(newUser)` in the signup handler. -/
def signupUpdatedUsers (users : List JsObj) (newUser : JsObj) : List JsObj :=
  users ++ [newUser]

/-- `window.createTestUser`'s debug record, stored with a plain-text
password (a "legacy" record). -/
def createTestUserRecord (createdAt : String) : JsObj :=
  [("username", Json.str "dheerajkukkadapu"), ("email", Json.str "test@example.com"),
   ("first", Json.str "Dheeraj"), ("last", Json.str "Kukkadapu"),
   ("password", Json.str "password123"), ("createdAt", Json.str createdAt)]

/-- Strict equality `x === s` of a property value against a string. -/
def jsStrictEqStr (x : Option Json) (s : String) : Bool :=
  match x with
  | some (.str t) => t == s
  | _ => false

/-- The value of a string-valued field (the credential fields the login
handler passes to `verifyPassword`). -/
def jsonAsString : Json → String
  | .str s => s
  | _ => ""

/-- The password branch of `Views.Login.handleSubmit` for a found user:
secure verification when `hashedPassword` and `salt` are truthy;
otherwise the legacy plain-text comparison, upgrading the record in place
(set `hashedPassword` and `salt` from a fresh hash of the entered
password, then `delete user.password`) on success; otherwise the record
is rejected as corrupted.  Returns `(isValidPassword, user record)`. -/
def loginHandleUser (derive : String → List Nat → List Nat) (freshSalt : List Nat)
    (user : JsObj) (entered : String) : Bool × JsObj :=
  if jsTruthyOpt (objGet user "hashedPassword") && jsTruthyOpt (objGet user "salt") then
    (verifyPassword derive entered
       (jsonAsString ((objGet user "hashedPassword").getD Json.null))
       (jsonAsString ((objGet user "salt").getD Json.null)), user)
  else if jsTruthyOpt (objGet user "password") then
    if jsStrictEqStr (objGet user "password") entered then
      let hr := hashPasswordFresh derive entered freshSalt
      (true,
        objDelete
          (objSet (objSet user "hashedPassword" (Json.str hr.hashedPassword))
            "salt" (Json.str hr.salt))
          "password")
    else (false, user)
  else (false, user)

/-- Reading a key after rewriting it in place yields the new value's
presence (`objGet` over the rewritten map). -/
theorem objGet_map_replace (o : JsObj) (k : String) (v : Json) :
    objGet (o.map (replaceIfKey k v)) k = (objGet o k).map (fun _ => v) := by
  induction o with
  | nil => rfl
  | cons p rest ih =>
    by_cases hp : (p.1 == k) = true
    · have hk : p.1 = k := eq_of_beq hp
      simp [objGet, replaceIfKey, hp, hk]
    · simp [objGet, replaceIfKey, hp, ih]

/-- Reading a different key is unaffected by an in-place rewrite. -/
theorem objGet_map_replace_ne (o : JsObj) (k : String) (v : Json) (q : String)
    (hne : q ≠ k) : objGet (o.map (replaceIfKey k v)) q = objGet o q := by
  induction o with
  | nil => rfl
  | cons p rest ih =>
    by_cases hp : (p.1 == k) = true
    · have hk : p.1 = k := eq_of_beq hp
      have hq : (k == q) = false := beq_eq_false_iff_ne.mpr (Ne.symm hne)
      simp [objGet, replaceIfKey, hp, hk, hq, ih]
    · simp [objGet, replaceIfKey, hp, ih]

/-- Reading over an append scans the left object first. -/
theorem objGet_append (o o' : JsObj) (k : String) :
    objGet (o ++ o') k = match objGet o k with
      | some v => some v
      | none => objGet o' k := by
  induction o with
  | nil => rfl
  | cons p rest ih =>
    by_cases hp : (p.1 == k) = true
    · simp [objGet, hp]
    · simp [objGet, hp, ih]

/-- After `o.k = v` the key `k` is present. -/
theorem objHasKey_objSet_self (o : JsObj) (k : String) (v : Json) :
    objHasKey (objSet o k v) k = true := by
  unfold objSet
  by_cases h : objHasKey o k = true
  · rw [if_pos h]
    unfold objHasKey at h ⊢
    rw [objGet_map_replace]
    cases hg : objGet o k with
    | none => rw [hg] at h; cases h
    | some w => simp
  · rw [if_neg h]
    unfold objHasKey at h ⊢
    rw [objGet_append]
    cases hg : objGet o k with
    | none => simp [objGet]
    | some w => rw [hg] at h; simp at h

/-- After `o.k = v` a different key keeps its presence. -/
theorem objHasKey_objSet_ne (o : JsObj) (k : String) (v : Json) (q : String)
    (hne : q ≠ k) : objHasKey (objSet o k v) q = objHasKey o q := by
  unfold objSet
  by_cases h : objHasKey o k = true
  · rw [if_pos h]
    unfold objHasKey
    rw [objGet_map_replace_ne o k v q hne]
  · rw [if_neg h]
    unfold objHasKey
    rw [objGet_append]
    cases hg : objGet o q with
    | none =>
      have hk : (k == q) = false := beq_eq_false_iff_ne.mpr (Ne.symm hne)
      simp [objGet, hk]
    | some w => simp

/-- After `delete o.k` the key `k` is gone. -/
theorem objHasKey_objDelete_self (o : JsObj) (k : String) :
    objHasKey (objDelete o k) k = false := by
  unfold objHasKey
  suffices h : objGet (objDelete o k) k = none by rw [h]; rfl
  induction o with
  | nil => rfl
  | cons p rest ih =>
    by_cases hp : (p.1 == k) = true
    · simp [objDelete, List.filter, hp, bne] at ih ⊢
      exact ih
    · have hbne : (p.1 != k) = true := by simp [bne, hp]
      simp [objDelete, List.filter, hbne, objGet, hp] at ih ⊢
      exact ih

/-- After `delete o.k` a different key keeps its presence. -/
theorem objHasKey_objDelete_ne (o : JsObj) (k q : String) (hne : q ≠ k) :
    objHasKey (objDelete o k) q = objHasKey o q := by
  unfold objHasKey
  suffices h : objGet (objDelete o k) q = objGet o q by rw [h]
  induction o with
  | nil => rfl
  | cons p rest ih =>
    by_cases hp : (p.1 == k) = true
    · have hk : p.1 = k := eq_of_beq hp
      have hq : (p.1 == q) = false := beq_eq_false_iff_ne.mpr (hk ▸ Ne.symm hne)
      simp [objDelete, List.filter, hp, bne, objGet, hq] at ih ⊢
      exact ih
    · have hbne : (p.1 != k) = true := by simp [bne, hp]
      by_cases hq : (p.1 == q) = true
      · simp [objDelete, List.filter, hbne, objGet, hq]
      · simp only [objDelete, List.filter, hbne, objGet, hq, Bool.false_eq_true,
          if_false] at ih ⊢
        exact ih

/-- C1: persisted credentials are hashed: the record signup creates
carries `hashedPassword` and `salt` and no plain-text `password` field,
and a legacy record (such as `createTestUser`'s) that passes the
plain-text comparison on login is upgraded in place: `hashedPassword` and
`salt` are written and the `password` field is deleted. -/
theorem user_records_store_hashed_credentials
    (derive : String → List Nat → List Nat) (freshSalt : List Nat)
    (username email first last createdAt entered : String) (hr : HashResult)
    (user : JsObj) :
    (objHasKey (signupNewUser username email first last hr createdAt) "hashedPassword" = true ∧
     objHasKey (signupNewUser username email first last hr createdAt) "salt" = true ∧
     objHasKey (signupNewUser username email first last hr createdAt) "password" = false) ∧
    ((jsTruthyOpt (objGet user "hashedPassword") && jsTruthyOpt (objGet user "salt")) = false →
     (loginHandleUser derive freshSalt user entered).1 = true →
     objHasKey (loginHandleUser derive freshSalt user entered).2 "hashedPassword" = true ∧
     objHasKey (loginHandleUser derive freshSalt user entered).2 "salt" = true ∧
     objHasKey (loginHandleUser derive freshSalt user entered).2 "password" = false) := by
  constructor
  · exact ⟨rfl, rfl, rfl⟩
  · intro hcond hsucc
    unfold loginHandleUser at hsucc ⊢
    rw [hcond] at hsucc ⊢
    simp only [Bool.false_eq_true, if_false] at hsucc ⊢
    by_cases hpw : jsTruthyOpt (objGet user "password") = true
    · rw [if_pos hpw] at hsucc ⊢
      by_cases hval : jsStrictEqStr (objGet user "password") entered = true
      · rw [if_pos hval] at hsucc ⊢
        refine ⟨?_, ?_, ?_⟩
        · rw [objHasKey_objDelete_ne _ _ _ (by decide)]
          rw [objHasKey_objSet_ne _ _ _ _ (by decide)]
          exact objHasKey_objSet_self _ _ _
        · rw [objHasKey_objDelete_ne _ _ _ (by decide)]
          exact objHasKey_objSet_self _ _ _
        · exact objHasKey_objDelete_self _ _
      · rw [if_neg hval] at hsucc
        cases hsucc
    · rw [if_neg hpw] at hsucc
      cases hsucc

/-- Witness for C1: a concrete signup record, and the concrete legacy
`createTestUser` record upgraded on a successful login with its stored
password. -/
theorem user_records_store_hashed_credentials_witness :
    (objHasKey (signupNewUser "newuser" "a@b.com" "Ann" "Lee" ⟨"00ff", "1,2"⟩ "2026-01-01")
        "hashedPassword" = true ∧
     objHasKey (signupNewUser "newuser" "a@b.com" "Ann" "Lee" ⟨"00ff", "1,2"⟩ "2026-01-01")
        "salt" = true ∧
     objHasKey (signupNewUser "newuser" "a@b.com" "Ann" "Lee" ⟨"00ff", "1,2"⟩ "2026-01-01")
        "password" = false) ∧
    (objHasKey (loginHandleUser (fun _ _ => [7]) [5] (createTestUserRecord "2026-01-01")
        "password123").2 "hashedPassword" = true ∧
     objHasKey (loginHandleUser (fun _ _ => [7]) [5] (createTestUserRecord "2026-01-01")
        "password123").2 "salt" = true ∧
     objHasKey (loginHandleUser (fun _ _ => [7]) [5] (createTestUserRecord "2026-01-01")
        "password123").2 "password" = false) :=
  ⟨(user_records_store_hashed_credentials (fun _ _ => [7]) [5] "newuser" "a@b.com" "Ann"
      "Lee" "2026-01-01" "password123" ⟨"00ff", "1,2"⟩ (createTestUserRecord "2026-01-01")).1,
   (user_records_store_hashed_credentials (fun _ _ => [7]) [5] "newuser" "a@b.com" "Ann"
      "Lee" "2026-01-01" "password123" ⟨"00ff", "1,2"⟩
      (createTestUserRecord "2026-01-01")).2 rfl rfl⟩
